import Mathlib

/-
Shallow embedding of the goperconn library (package goperconn): a
pseudo-persistent client connection that serializes Read/Write/Close jobs
through a FIFO queue consumed by a single owner loop (`proxy`), supervised
by a dial/backoff loop started in `New`.

Modelled from conn.go (the current revision, the one using ErrIOError /
ErrDialFailure and the net.Dial-vs-net.DialTimeout choice) and types.go.
Durations (Go time.Duration, int64 nanoseconds) are modelled as Int.
Byte slices are modelled as List Nat.
-/

namespace Goperconn

/-- Operation code of a rillJob (`opcode` in types.go): `_close`, `_read`, `_write`. -/
inductive Opcode where
  | close
  | read
  | write
deriving DecidableEq, Repr

/-- Error values of the package (types.go): ErrClosedConnection,
ErrDialFailure{Address, Err}, ErrIOError{Op, Err}; `raw` stands for an
arbitrary underlying error produced by the socket or the dialer. -/
inductive GoErr where
  | closedConnection
  | dialFailure (address : String) (cause : GoErr)
  | ioError (op : Opcode) (cause : GoErr)
  | raw (msg : String)
deriving DecidableEq, Repr

/-- rillJob (types.go): one queued operation with its payload.  The
per-job result channel is implicit: results are paired with jobs by the
model (`Answer`). -/
structure RillJob where
  op : Opcode
  data : List Nat
deriving DecidableEq, Repr

/-- newRillJob (types.go). -/
def newRillJob (op : Opcode) (data : List Nat) : RillJob :=
  { op := op, data := data }

/-- rillResult (types.go): count and optional error. -/
structure RillResult where
  n : Nat
  err : Option GoErr
deriving DecidableEq, Repr

/-- Result of one io.Reader.Read call: count, the buffer contents after the
call (the reader may rewrite the whole provided buffer), and optional error. -/
structure ReadRes where
  n : Nat
  buf : List Nat
  err : Option GoErr
deriving DecidableEq, Repr

/-- Model of io.ReadWriteCloser: a deterministic state machine over socket
state `σ`.  `readFn s p` returns the ReadRes for buffer `p` and the next
state; similarly for write and close. -/
structure RWC (σ : Type) where
  readFn : σ → List Nat → ReadRes × σ
  writeFn : σ → List Nat → (Nat × Option GoErr) × σ
  closeFn : σ → Option GoErr × σ

/-- The value sent back on one job's result channel, together with the op
that was served and the job buffer contents at response time. -/
structure Answer where
  op : Opcode
  buf : List Nat
  res : RillResult
deriving DecidableEq, Repr

/-- Observable outcome of one `proxy` invocation over a finite queue
content: the answers sent (in order), the ops actually executed against the
socket (in order), `ret = some (closed, err)` when proxy returned (`none`
when it consumed the whole queue and blocks waiting for more jobs), the
jobs left unconsumed in the channel, and the final socket state. -/
structure ProxyOut (σ : Type) where
  answers : List Answer
  execOps : List Opcode
  ret : Option (Bool × Option GoErr)
  leftover : List RillJob
  state : σ
deriving DecidableEq, Repr

/-- The body of Conn.proxy (conn.go): `for job := range client.jobs`, with
the `closed` flag threaded exactly as in the source.  On a read/write error
the socket is closed and proxy returns `(false, err)`; on a close job the
flag is set, the socket closed, and proxy returns `(true, err)` at once. -/
def proxyLoop {σ : Type} (rwc : RWC σ) : σ → Bool → List RillJob → ProxyOut σ
  | s, _, [] => ⟨[], [], none, [], s⟩
  | s, closed, j :: rest =>
    if closed then
      let o := proxyLoop rwc s closed rest
      { o with answers := ⟨j.op, j.data, ⟨0, some GoErr.closedConnection⟩⟩ :: o.answers }
    else
      match j.op with
      | Opcode.read =>
        let rr := (rwc.readFn s j.data).1
        let s1 := (rwc.readFn s j.data).2
        match rr.err with
        | none =>
          let o := proxyLoop rwc s1 closed rest
          { o with
              answers := ⟨Opcode.read, rr.buf, ⟨rr.n, none⟩⟩ :: o.answers,
              execOps := Opcode.read :: o.execOps }
        | some e =>
          ⟨[⟨Opcode.read, rr.buf, ⟨rr.n, some e⟩⟩], [Opcode.read],
            some (false, some e), rest, (rwc.closeFn s1).2⟩
      | Opcode.write =>
        let wn := (rwc.writeFn s j.data).1.1
        let we := (rwc.writeFn s j.data).1.2
        let s1 := (rwc.writeFn s j.data).2
        match we with
        | none =>
          let o := proxyLoop rwc s1 closed rest
          { o with
              answers := ⟨Opcode.write, j.data, ⟨wn, none⟩⟩ :: o.answers,
              execOps := Opcode.write :: o.execOps }
        | some e =>
          ⟨[⟨Opcode.write, j.data, ⟨wn, some e⟩⟩], [Opcode.write],
            some (false, some e), rest, (rwc.closeFn s1).2⟩
      | Opcode.close =>
        ⟨[⟨Opcode.close, j.data, ⟨0, (rwc.closeFn s).1⟩⟩], [Opcode.close],
          some (true, (rwc.closeFn s).1), rest, (rwc.closeFn s).2⟩

/-- Conn.proxy: the loop starts with `var closed bool` (false). -/
def proxy {σ : Type} (rwc : RWC σ) (s : σ) (jobs : List RillJob) : ProxyOut σ :=
  proxyLoop rwc s false jobs

/-- The error wrapping done at the end of Conn.Read / Conn.Write /
Conn.Close: `if result.err != nil { result.err = ErrIOError{op, result.err} }`. -/
def wrapErr (op : Opcode) : Option GoErr → Option GoErr
  | none => none
  | some e => some (GoErr.ioError op e)

/-- Go's builtin `copy(dst, src)`: copies `min (len dst) (len src)` bytes
into the front of dst; dst keeps its remaining tail and its length. -/
def goCopy (dst src : List Nat) : List Nat :=
  src.take (min dst.length src.length) ++ dst.drop (min dst.length src.length)

/-- Conn.Read (conn.go) for a quiescent connection: builds a read job with a
freshly allocated zero-filled buffer of the caller buffer's length, lets the
owner loop serve it, then `copy(data, job.data)` and wraps a non-nil error
in ErrIOError{_read, err}.  Returns ((count, error), caller buffer after). -/
def connRead {σ : Type} (rwc : RWC σ) (s : σ) (data : List Nat) :
    (Nat × Option GoErr) × List Nat :=
  let job := newRillJob Opcode.read (List.replicate data.length 0)
  match (proxy rwc s [job]).answers with
  | a :: _ => ((a.res.n, wrapErr Opcode.read a.res.err), goCopy data a.buf)
  | [] => ((0, none), data)

/-- Conn.Write (conn.go) for a quiescent connection. -/
def connWrite {σ : Type} (rwc : RWC σ) (s : σ) (data : List Nat) :
    Nat × Option GoErr :=
  let job := newRillJob Opcode.write data
  match (proxy rwc s [job]).answers with
  | a :: _ => (a.res.n, wrapErr Opcode.write a.res.err)
  | [] => (0, none)

/-- Conn.Close (conn.go) for a quiescent connection (job data is nil). -/
def connClose {σ : Type} (rwc : RWC σ) (s : σ) : Option GoErr :=
  let job := newRillJob Opcode.close []
  match (proxy rwc s [job]).answers with
  | a :: _ => wrapErr Opcode.close a.res.err
  | [] => none

/-- time.Second in nanoseconds (time.Duration is int64 nanoseconds). -/
def second : Int := 1000000000

/-- DefaultJobQueueSize (conn.go). -/
def DefaultJobQueueSize : Nat := 10

/-- DefaultRetryMin (conn.go): time.Second. -/
def DefaultRetryMin : Int := second

/-- DefaultRetryMax (conn.go): time.Minute. -/
def DefaultRetryMax : Int := 60 * second

/-- The configuration-bearing part of the Conn struct (conn.go).  The jobs
channel is represented by its capacity, the optional Printer by a flag. -/
structure Conn where
  address : String
  dialTimeout : Int
  jobsCap : Nat
  hasPrinter : Bool
  retryMax : Int
  retryMin : Int
deriving DecidableEq, Repr

/-- The Configurator values the package exports: Address, DialTimeout,
Logger, RetryMin, RetryMax (conn.go).  None of them can fail. -/
inductive Configurator where
  | address (a : String)
  | dialTimeout (d : Int)
  | logger
  | retryMin (d : Int)
  | retryMax (d : Int)
deriving DecidableEq, Repr

/-- Applying one Configurator to the Conn under construction. -/
def applyConfigurator (c : Conn) : Configurator → Conn
  | Configurator.address a => { c with address := a }
  | Configurator.dialTimeout d => { c with dialTimeout := d }
  | Configurator.logger => { c with hasPrinter := true }
  | Configurator.retryMin d => { c with retryMin := d }
  | Configurator.retryMax d => { c with retryMax := d }

/-- The four fmt.Errorf validation failures of New, in source order. -/
inductive NewError where
  | retryMinZero (v : Int)
  | retryMaxZero (v : Int)
  | retryMaxLtMin (mx mn : Int)
  | emptyAddress (a : String)
deriving DecidableEq, Repr

/-- The literal `&Conn{...}` New starts from: retryMin/retryMax defaulted,
jobs channel of capacity DefaultJobQueueSize; address, dialTimeout and
printer are zero-valued. -/
def defaultConn : Conn :=
  { address := "", dialTimeout := 0, jobsCap := DefaultJobQueueSize,
    hasPrinter := false, retryMax := DefaultRetryMax, retryMin := DefaultRetryMin }

/-- New (conn.go): apply the setters in order, then validate; the supervisor
goroutine is started only after all validations pass. -/
def New (setters : List Configurator) : Except NewError Conn :=
  let c := setters.foldl applyConfigurator defaultConn
  if c.retryMin = 0 then Except.error (NewError.retryMinZero c.retryMin)
  else if c.retryMax = 0 then Except.error (NewError.retryMaxZero c.retryMax)
  else if c.retryMax < c.retryMin then
    Except.error (NewError.retryMaxLtMin c.retryMax c.retryMin)
  else if c.address = "" then Except.error (NewError.emptyAddress c.address)
  else Except.ok c

/-- Which dial call the supervisor goroutine makes: net.Dial when
dialTimeout is zero, net.DialTimeout otherwise (conn.go). -/
inductive DialKind where
  | unbounded
  | bounded (timeout : Int)
deriving DecidableEq, Repr

/-- The dial choice in the supervisor goroutine of New. -/
def dialKind (c : Conn) : DialKind :=
  if c.dialTimeout = 0 then DialKind.unbounded else DialKind.bounded c.dialTimeout

/-- Environment script for the supervisor loop: each dial attempt either
fails with a cause, or yields a connected socket (its state) together with
the jobs that arrive on the channel during that session. -/
inductive DialOutcome (σ : Type) where
  | fail (cause : GoErr)
  | ok (s : σ) (arrivals : List RillJob)
deriving DecidableEq, Repr

/-- Observable events of the supervisor goroutine: dial attempts, answers
delivered to job result channels, Printer.Print invocations, time.Sleep
calls, and the goroutine returning after a user Close. -/
inductive SupEvent where
  | dial (k : DialKind)
  | answer (a : Answer)
  | print (e : GoErr)
  | sleep (d : Int)
  | terminated
deriving DecidableEq, Repr

/-- The backoff update of the supervisor goroutine (conn.go):
`retry *= 2; if retry > retryMax { retry = retryMax }`. -/
def capDouble (r m : Int) : Int :=
  if 2 * r > m then m else 2 * r

/-- The supervisor goroutine started by New (conn.go), run against a script
of dial outcomes.  State: the current backoff `retry` and the queue content
`pending` carried across sessions.  A dial failure prints ErrDialFailure
(when a printer is set), sleeps `retry`, doubles it capped at retryMax.  A
successful dial runs `proxy`; its returned error is printed raw (when a
printer is set); a user close terminates the goroutine; a broken connection
resets `retry` to retryMin and sleeps it once before redialing. -/
def supRun {σ : Type} (c : Conn) (rwc : RWC σ) :
    Int → List RillJob → List (DialOutcome σ) → List SupEvent
  | _, _, [] => []
  | retry, pending, DialOutcome.fail cause :: rest =>
    SupEvent.dial (dialKind c)
      :: ((if c.hasPrinter then [SupEvent.print (GoErr.dialFailure c.address cause)] else [])
        ++ SupEvent.sleep retry :: supRun c rwc (capDouble retry c.retryMax) pending rest)
  | _, pending, DialOutcome.ok s arrivals :: rest =>
    SupEvent.dial (dialKind c)
      :: (((proxy rwc s (pending ++ arrivals)).answers.map SupEvent.answer)
        ++ match (proxy rwc s (pending ++ arrivals)).ret with
           | none => []
           | some (closedFlag, err) =>
             (match err, c.hasPrinter with
              | some e, true => [SupEvent.print e]
              | some _, false => []
              | none, _ => [])
             ++ (if closedFlag then [SupEvent.terminated]
                 else SupEvent.sleep c.retryMin
                   :: supRun c rwc c.retryMin (proxy rwc s (pending ++ arrivals)).leftover rest))

/-- New followed by the supervisor run: none when New failed (no goroutine,
no dial attempt, no events). -/
def newAndRun {σ : Type} (setters : List Configurator) (rwc : RWC σ)
    (pending : List RillJob) (outs : List (DialOutcome σ)) : Option (List SupEvent) :=
  match New setters with
  | Except.error _ => none
  | Except.ok c => some (supRun c rwc c.retryMin pending outs)

/-- The durations of the sleep events of a trace, in order. -/
def sleepDurations : List SupEvent → List Int
  | [] => []
  | SupEvent.dial _ :: es => sleepDurations es
  | SupEvent.answer _ :: es => sleepDurations es
  | SupEvent.print _ :: es => sleepDurations es
  | SupEvent.sleep d :: es => d :: sleepDurations es
  | SupEvent.terminated :: es => sleepDurations es

/-- The arguments of the print events of a trace, in order. -/
def printEvents : List SupEvent → List GoErr
  | [] => []
  | SupEvent.dial _ :: es => printEvents es
  | SupEvent.answer _ :: es => printEvents es
  | SupEvent.print e :: es => e :: printEvents es
  | SupEvent.sleep _ :: es => printEvents es
  | SupEvent.terminated :: es => printEvents es

/-- The answers delivered by a trace, in order. -/
def answerEvents : List SupEvent → List Answer
  | [] => []
  | SupEvent.dial _ :: es => answerEvents es
  | SupEvent.answer a :: es => a :: answerEvents es
  | SupEvent.print _ :: es => answerEvents es
  | SupEvent.sleep _ :: es => answerEvents es
  | SupEvent.terminated :: es => answerEvents es

/-- The sleep durations produced by `n` consecutive dial failures starting
from backoff `r` with cap `m`: sleep the current value, then double capped. -/
def backoffList (m : Int) : Int → Nat → List Int
  | _, 0 => []
  | r, n + 1 => r :: backoffList m (capDouble r m) n

/-- The backoff value after `n` consecutive dial failures starting from `r`. -/
def backoffEnd (m : Int) : Int → Nat → Int
  | r, 0 => r
  | r, n + 1 => backoffEnd m (capDouble r m) n

/-- A trivial socket whose reads report eof, writes fail, close succeeds:
used to exercise the broken-connection paths on concrete inputs. -/
def unitRWC : RWC Unit :=
  { readFn := fun s b => (⟨0, b, some (GoErr.raw "eof")⟩, s),
    writeFn := fun s _ => ((0, some (GoErr.raw "io")), s),
    closeFn := fun s => (none, s) }

/-- A socket all of whose operations fail with distinct raw errors. -/
def rwcAllFail : RWC Unit :=
  { readFn := fun s b => (⟨0, b, some (GoErr.raw "boom")⟩, s),
    writeFn := fun s _ => ((0, some (GoErr.raw "wboom")), s),
    closeFn := fun s => (some (GoErr.raw "cboom"), s) }

/-- A Conn with retryMin = 1s, retryMax = 8s, no printer. -/
def conn8 : Conn :=
  { address := "a", dialTimeout := 0, jobsCap := 10, hasPrinter := false,
    retryMax := 8 * second, retryMin := second }

/-- conn8 with a printer configured. -/
def conn8P : Conn :=
  { address := "a", dialTimeout := 0, jobsCap := 10, hasPrinter := true,
    retryMax := 8 * second, retryMin := second }

/-- The dial kinds of the dial events of a trace, in order. -/
def dialEvents : List SupEvent → List DialKind
  | [] => []
  | SupEvent.dial k :: es => k :: dialEvents es
  | SupEvent.answer _ :: es => dialEvents es
  | SupEvent.print _ :: es => dialEvents es
  | SupEvent.sleep _ :: es => dialEvents es
  | SupEvent.terminated :: es => dialEvents es

/-- A well-behaved reader delivering two bytes then stopping; writes and
close succeed. -/
def rwcTwoBytes : RWC Unit :=
  { readFn := fun s _ => (⟨2, [5, 6, 0], none⟩, s),
    writeFn := fun s _ => ((0, none), s),
    closeFn := fun s => (none, s) }

theorem sleepDurations_append (a b : List SupEvent) :
    sleepDurations (a ++ b) = sleepDurations a ++ sleepDurations b := by
  induction a with
  | nil => rfl
  | cons e a ih => cases e <;> simp [sleepDurations, ih]

theorem printEvents_append (a b : List SupEvent) :
    printEvents (a ++ b) = printEvents a ++ printEvents b := by
  induction a with
  | nil => rfl
  | cons e a ih => cases e <;> simp [printEvents, ih]

theorem answerEvents_append (a b : List SupEvent) :
    answerEvents (a ++ b) = answerEvents a ++ answerEvents b := by
  induction a with
  | nil => rfl
  | cons e a ih => cases e <;> simp [answerEvents, ih]

theorem dialEvents_append (a b : List SupEvent) :
    dialEvents (a ++ b) = dialEvents a ++ dialEvents b := by
  induction a with
  | nil => rfl
  | cons e a ih => cases e <;> simp [dialEvents, ih]

theorem sleepDurations_map_answer (l : List Answer) :
    sleepDurations (l.map SupEvent.answer) = [] := by
  induction l with
  | nil => rfl
  | cons a l ih => simp [sleepDurations, ih]

theorem printEvents_map_answer (l : List Answer) :
    printEvents (l.map SupEvent.answer) = [] := by
  induction l with
  | nil => rfl
  | cons a l ih => simp [printEvents, ih]

theorem dialEvents_map_answer (l : List Answer) :
    dialEvents (l.map SupEvent.answer) = [] := by
  induction l with
  | nil => rfl
  | cons a l ih => simp [dialEvents, ih]

theorem goCopy_eq_of_length (dst src : List Nat) (h : src.length = dst.length) :
    goCopy dst src = src := by
  unfold goCopy
  rw [h, min_self, List.drop_length, List.append_nil, ← h, List.take_length]

theorem supRun_fail_eq {σ : Type} (c : Conn) (rwc : RWC σ) (r : Int)
    (pending : List RillJob) (cause : GoErr) (rest : List (DialOutcome σ)) :
    supRun c rwc r pending (DialOutcome.fail cause :: rest)
      = SupEvent.dial (dialKind c)
        :: ((if c.hasPrinter then [SupEvent.print (GoErr.dialFailure c.address cause)] else [])
          ++ SupEvent.sleep r :: supRun c rwc (capDouble r c.retryMax) pending rest) := rfl

theorem supRun_ok_broken {σ : Type} (c : Conn) (rwc : RWC σ) (r : Int)
    (pending arr : List RillJob) (s : σ) (e : GoErr) (rest : List (DialOutcome σ))
    (h : (proxy rwc s (pending ++ arr)).ret = some (false, some e)) :
    supRun c rwc r pending (DialOutcome.ok s arr :: rest)
      = SupEvent.dial (dialKind c)
        :: ((proxy rwc s (pending ++ arr)).answers.map SupEvent.answer
          ++ (if c.hasPrinter then [SupEvent.print e] else [])
          ++ SupEvent.sleep c.retryMin
            :: supRun c rwc c.retryMin (proxy rwc s (pending ++ arr)).leftover rest) := by
  rcases Bool.eq_false_or_eq_true c.hasPrinter with hp | hp <;>
    simp [supRun, h, hp]

theorem supRun_ok_clean_close {σ : Type} (c : Conn) (rwc : RWC σ) (r : Int)
    (pending arr : List RillJob) (s : σ) (rest : List (DialOutcome σ))
    (h : (proxy rwc s (pending ++ arr)).ret = some (true, none)) :
    supRun c rwc r pending (DialOutcome.ok s arr :: rest)
      = SupEvent.dial (dialKind c)
        :: ((proxy rwc s (pending ++ arr)).answers.map SupEvent.answer
          ++ [SupEvent.terminated]) := by
  simp [supRun, h]

theorem supRun_head {σ : Type} (c : Conn) (rwc : RWC σ) (r : Int)
    (pending : List RillJob) (o : DialOutcome σ) (rest : List (DialOutcome σ)) :
    (supRun c rwc r pending (o :: rest)).head? = some (SupEvent.dial (dialKind c)) := by
  cases o <;> rfl

theorem printEvents_no_printer {σ : Type} (c : Conn) (rwc : RWC σ)
    (hp : c.hasPrinter = false) :
    ∀ (outs : List (DialOutcome σ)) (r : Int) (pending : List RillJob),
      printEvents (supRun c rwc r pending outs) = [] := by
  intro outs
  induction outs with
  | nil => intro r pending; simp [supRun, printEvents]
  | cons o rest ih =>
    intro r pending
    cases o with
    | fail cause =>
      rw [supRun_fail_eq]
      simp [printEvents, printEvents_append, hp, ih]
    | ok s arr =>
      rcases hret : (proxy rwc s (pending ++ arr)).ret with _ | ⟨flag, err⟩
      · simp [supRun, hret, printEvents, printEvents_append, printEvents_map_answer]
      · cases flag <;> rcases err with _ | e <;>
          simp [supRun, hret, hp, printEvents, printEvents_append,
            printEvents_map_answer, ih]

theorem dialEvents_supRun {σ : Type} (c : Conn) (rwc : RWC σ) :
    ∀ (outs : List (DialOutcome σ)) (r : Int) (pending : List RillJob),
      ∀ k ∈ dialEvents (supRun c rwc r pending outs), k = dialKind c := by
  intro outs
  induction outs with
  | nil => intro r pending k hk; simp [supRun, dialEvents] at hk
  | cons o rest ih =>
    intro r pending k hk
    cases o with
    | fail cause =>
      rw [supRun_fail_eq] at hk
      rcases Bool.eq_false_or_eq_true c.hasPrinter with hp | hp <;>
        simp [dialEvents, dialEvents_append, hp] at hk <;>
        rcases hk with hk | hk
      · exact hk
      · exact ih _ _ _ hk
      · exact hk
      · exact ih _ _ _ hk
    | ok s arr =>
      rcases hret : (proxy rwc s (pending ++ arr)).ret with _ | ⟨flag, err⟩
      · simp [supRun, hret, dialEvents, dialEvents_append,
          dialEvents_map_answer] at hk
        exact hk
      · rcases Bool.eq_false_or_eq_true c.hasPrinter with hp | hp <;>
          cases flag <;> rcases err with _ | e <;>
          simp [supRun, hret, hp, dialEvents, dialEvents_append,
            dialEvents_map_answer] at hk <;>
          first
            | exact hk
            | exact ih _ _ _ hk
            | (rcases hk with hk | hk
               · exact hk
               · exact ih _ _ _ hk)

theorem sleeps_replicate_fail {σ : Type} (c : Conn) (rwc : RWC σ) (cause : GoErr) :
    ∀ (n : Nat) (r : Int) (pending : List RillJob) (rest : List (DialOutcome σ)),
      sleepDurations (supRun c rwc r pending
          (List.replicate n (DialOutcome.fail cause) ++ rest))
        = backoffList c.retryMax r n
          ++ sleepDurations (supRun c rwc (backoffEnd c.retryMax r n) pending rest) := by
  intro n
  induction n with
  | zero => intro r pending rest; simp [backoffList, backoffEnd]
  | succ n ih =>
    intro r pending rest
    rw [List.replicate_succ, List.cons_append, supRun_fail_eq]
    rcases Bool.eq_false_or_eq_true c.hasPrinter with hp | hp <;>
      simp [sleepDurations, sleepDurations_append, hp, backoffList, backoffEnd, ih]

theorem capDouble_ge_one (r m : Int) (h1 : 1 ≤ r) (hm : r ≤ m) :
    1 ≤ capDouble r m := by
  unfold capDouble; split_ifs <;> omega

theorem capDouble_le (r m : Int) (h1 : 1 ≤ r) (hm : r ≤ m) :
    capDouble r m ≤ m := by
  unfold capDouble; split_ifs <;> omega

theorem backoffList_closed (m : Int) :
    ∀ (n : Nat) (r : Int), 1 ≤ r → r ≤ m →
      backoffList m r n = (List.range n).map (fun i => min ((2 : Int) ^ i * r) m) := by
  intro n
  induction n with
  | zero => intro r h1 h2; simp [backoffList]
  | succ n ih =>
    intro r h1 h2
    rw [backoffList, ih (capDouble r m) (capDouble_ge_one r m h1 h2) (capDouble_le r m h1 h2),
      List.range_succ_eq_map]
    simp only [List.map_cons, List.map_map]
    congr 1
    · simp only [pow_zero, one_mul]
      omega
    · apply List.map_congr_left
      intro i _
      simp only [Function.comp_apply]
      have h2i : (1 : Int) ≤ 2 ^ i := one_le_pow₀ (by norm_num)
      unfold capDouble
      split_ifs with hgt
      · have hmm : m ≤ 2 ^ i * m := le_mul_of_one_le_left (by omega) h2i
        have hrr : 2 * r ≤ 2 ^ i * (2 * r) := le_mul_of_one_le_left (by omega) h2i
        have hp : (2 : Int) ^ (i + 1) * r = 2 ^ i * (2 * r) := by ring
        rw [hp]
        omega
      · have hp : (2 : Int) ^ (i + 1) * r = 2 ^ i * (2 * r) := by ring
        rw [hp]

/-- Claim C1, evaluation of the code at the failing input.  Queue a Close
job followed by a Read job.  The owner loop answers the Close and returns
`(true, nil)` at once, leaving the Read job unconsumed in the channel; the
supervisor goroutine then terminates, so the Read caller never receives any
result — in particular not the ClosedConnection error the claim promises.
The third conjunct shows the `if closed` drain branch of proxy would indeed
answer ClosedConnection, but the loop's early return makes it unreachable
from the initial `closed = false` state. -/
theorem proxy_close_terminates_consumer_bug :
    proxy unitRWC () [newRillJob Opcode.close [], newRillJob Opcode.read [0, 0]]
      = ⟨[⟨Opcode.close, [], ⟨0, none⟩⟩], [Opcode.close], some (true, none),
          [newRillJob Opcode.read [0, 0]], ()⟩
    ∧ supRun conn8 unitRWC conn8.retryMin
        [newRillJob Opcode.close [], newRillJob Opcode.read [0, 0]] [DialOutcome.ok () []]
      = [SupEvent.dial DialKind.unbounded,
         SupEvent.answer ⟨Opcode.close, [], ⟨0, none⟩⟩, SupEvent.terminated]
    ∧ proxyLoop unitRWC () true [newRillJob Opcode.read [0, 0]]
      = ⟨[⟨Opcode.read, [0, 0], ⟨0, some GoErr.closedConnection⟩⟩], [], none, [], ()⟩ :=
  ⟨rfl, rfl, rfl⟩

/-- Claim C4, counterexample: a negative retryMin is accepted.  New checks
`retryMin == 0`, `retryMax == 0`, `retryMax < retryMin`, `address == ""`,
so retryMin = -1s with the default retryMax = 60s passes validation and the
supervisor goroutine is started, contradicting "non-positive retryMin or
retryMax (zero or negative) fails". -/
theorem new_accepts_negative_retryMin :
    New [Configurator.address "a", Configurator.retryMin (-second)]
      = Except.ok { address := "a", dialTimeout := 0, jobsCap := 10, hasPrinter := false,
                    retryMax := 60 * second, retryMin := -second } := rfl

/-- Claim C4, amended: New fails with a configuration error exactly when
the assembled configuration has retryMin = 0, or retryMax = 0, or
retryMax < retryMin, or an empty address; and whenever New fails no
supervisor is started (no dial attempt, no background event). -/
theorem new_validation_spec {σ : Type} (setters : List Configurator) (rwc : RWC σ)
    (pending : List RillJob) (outs : List (DialOutcome σ)) :
    ((∃ e, New setters = Except.error e) ↔
      ((setters.foldl applyConfigurator defaultConn).retryMin = 0
        ∨ (setters.foldl applyConfigurator defaultConn).retryMax = 0
        ∨ (setters.foldl applyConfigurator defaultConn).retryMax
            < (setters.foldl applyConfigurator defaultConn).retryMin
        ∨ (setters.foldl applyConfigurator defaultConn).address = ""))
    ∧ (∀ e, New setters = Except.error e → newAndRun setters rwc pending outs = none) := by
  constructor
  · unfold New
    dsimp only
    split_ifs with h1 h2 h3 h4
    · exact ⟨fun _ => Or.inl h1, fun _ => ⟨_, rfl⟩⟩
    · exact ⟨fun _ => Or.inr (Or.inl h2), fun _ => ⟨_, rfl⟩⟩
    · exact ⟨fun _ => Or.inr (Or.inr (Or.inl h3)), fun _ => ⟨_, rfl⟩⟩
    · exact ⟨fun _ => Or.inr (Or.inr (Or.inr h4)), fun _ => ⟨_, rfl⟩⟩
    · constructor
      · rintro ⟨e, he⟩
        exact he.elim
      · rintro (h | h | h | h)
        · exact absurd h h1
        · exact absurd h h2
        · exact absurd h h3
        · exact absurd h h4
  · intro e he
    simp [newAndRun, he]

/-- Claim C4 witness: the empty address is rejected and starts nothing. -/
theorem new_validation_spec_witness :
    ((∃ e, New [Configurator.retryMin second] = Except.error e) ↔
      (([Configurator.retryMin second].foldl applyConfigurator defaultConn).retryMin = 0
        ∨ ([Configurator.retryMin second].foldl applyConfigurator defaultConn).retryMax = 0
        ∨ ([Configurator.retryMin second].foldl applyConfigurator defaultConn).retryMax
            < ([Configurator.retryMin second].foldl applyConfigurator defaultConn).retryMin
        ∨ ([Configurator.retryMin second].foldl applyConfigurator defaultConn).address = ""))
    ∧ newAndRun [Configurator.retryMin second] unitRWC []
        ([] : List (DialOutcome Unit)) = none := by
  have h := new_validation_spec [Configurator.retryMin second] unitRWC []
    ([] : List (DialOutcome Unit))
  exact ⟨h.1, h.2 (NewError.emptyAddress "") rfl⟩

/-- Claim C5, counterexample: with only an Address configured, New leaves
dialTimeout at its zero value, not at 5 seconds — the current code has no
DefaultDialTimeout; a zero dialTimeout selects the unbounded net.Dial.  The
other defaults (retryMin 1s, retryMax 60s = time.Minute, job queue 10) do
hold. -/
theorem new_default_dialTimeout_zero :
    New [Configurator.address "a"]
      = Except.ok { address := "a", dialTimeout := 0, jobsCap := 10, hasPrinter := false,
                    retryMax := 60 * second, retryMin := second }
    ∧ (0 : Int) ≠ 5 * second :=
  ⟨rfl, by decide⟩

/-- Claim C5, amended: when only the required Address option is supplied,
New applies the defaults retryMin = DefaultRetryMin (1s), retryMax =
DefaultRetryMax (60s), job queue capacity DefaultJobQueueSize (10), no
printer, and dialTimeout = 0, which means the unbounded net.Dial is used. -/
theorem new_defaults_spec (a : String) (ha : a ≠ "") :
    New [Configurator.address a]
      = Except.ok { address := a, dialTimeout := 0, jobsCap := DefaultJobQueueSize,
                    hasPrinter := false, retryMax := DefaultRetryMax,
                    retryMin := DefaultRetryMin }
    ∧ dialKind { address := a, dialTimeout := 0, jobsCap := DefaultJobQueueSize,
                    hasPrinter := false, retryMax := DefaultRetryMax,
                    retryMin := DefaultRetryMin } = DialKind.unbounded := by
  constructor
  · unfold New
    simp [applyConfigurator, defaultConn, DefaultRetryMin, DefaultRetryMax, second, ha]
  · rfl

/-- Claim C5 witness. -/
theorem new_defaults_spec_witness :
    New [Configurator.address "a"]
      = Except.ok { address := "a", dialTimeout := 0, jobsCap := DefaultJobQueueSize,
                    hasPrinter := false, retryMax := DefaultRetryMax,
                    retryMin := DefaultRetryMin } :=
  (new_defaults_spec "a" (by decide)).1

/-- Claim C6: dialTimeout = 0 makes every dial attempt the unbounded
net.Dial; a non-zero dialTimeout makes every dial attempt the bounded
net.DialTimeout with that bound; every dial event of any supervisor run
uses exactly this choice. -/
theorem dial_timeout_choice_spec {σ : Type} (c : Conn) (rwc : RWC σ) (r : Int)
    (pending : List RillJob) (outs : List (DialOutcome σ)) :
    (c.dialTimeout = 0 → dialKind c = DialKind.unbounded)
    ∧ (c.dialTimeout ≠ 0 → dialKind c = DialKind.bounded c.dialTimeout)
    ∧ (∀ k ∈ dialEvents (supRun c rwc r pending outs), k = dialKind c) := by
  refine ⟨fun h => ?_, fun h => ?_, fun k hk => dialEvents_supRun c rwc outs r pending k hk⟩
  · simp [dialKind, h]
  · simp [dialKind, h]

/-- Claim C6 witness. -/
theorem dial_timeout_choice_spec_witness :
    dialKind conn8 = DialKind.unbounded
    ∧ dialKind { conn8 with dialTimeout := 5 * second }
        = DialKind.bounded (5 * second)
    ∧ DialKind.unbounded = dialKind conn8 := by
  have h1 := dial_timeout_choice_spec conn8 unitRWC second [] [DialOutcome.fail (GoErr.raw "x")]
  have h2 := dial_timeout_choice_spec { conn8 with dialTimeout := 5 * second } unitRWC second []
    ([] : List (DialOutcome Unit))
  exact ⟨h1.1 rfl, h2.2.1 (by decide), h1.2.2 DialKind.unbounded (by decide)⟩

/-- Claim C7, evaluation of the code at the failing input.  With a Logger
configured and a queued Read whose socket read fails with cause "boom":
the caller's Result carries the operation-tagged ErrIOError (so do failing
Write and Close calls), but the diagnostic sink is invoked with the raw
cause, not with the ErrIOError wrapper — `client.printer.Print(err)` prints
proxy's raw return error, contradicting both the claim and the ErrIOError
doc comment in types.go. -/
theorem io_error_sink_unwrapped_bug :
    printEvents (supRun conn8P rwcAllFail second [newRillJob Opcode.read [0]]
        [DialOutcome.ok () []])
      = [GoErr.raw "boom"]
    ∧ (connRead rwcAllFail () [0]).1
        = (0, some (GoErr.ioError Opcode.read (GoErr.raw "boom")))
    ∧ connWrite rwcAllFail () [1]
        = (0, some (GoErr.ioError Opcode.write (GoErr.raw "wboom")))
    ∧ connClose rwcAllFail () = some (GoErr.ioError Opcode.close (GoErr.raw "cboom"))
    ∧ GoErr.raw "boom" ≠ GoErr.ioError Opcode.read (GoErr.raw "boom") :=
  ⟨rfl, rfl, rfl, rfl, by decide⟩

/-- Claim C10: Conn.Read allocates a zero-filled job buffer of the caller
buffer's length; for a reader that writes `bs` (length n ≤ len data) into
the front of that buffer and leaves the rest, the whole caller buffer is
overwritten by `copy`: it becomes the n read bytes followed by zeros, the
original tail bytes being replaced rather than left unchanged. -/
theorem read_overwrites_whole_buffer {σ : Type} (rwc : RWC σ) (s : σ)
    (data bs : List Nat) (n : Nat) (hn : n ≤ data.length) (hbs : bs.length = n)
    (hr : (rwc.readFn s (List.replicate data.length 0)).1
          = ⟨n, bs ++ List.replicate (data.length - n) 0, none⟩) :
    connRead rwc s data = ((n, none), bs ++ List.replicate (data.length - n) 0) := by
  have hgoal : connRead rwc s data
      = ((n, none), goCopy data (bs ++ List.replicate (data.length - n) 0)) := by
    unfold connRead proxy proxyLoop
    simp [newRillJob, hr, wrapErr]
  rw [hgoal, goCopy_eq_of_length]
  simp [hbs]
  omega

/-- Claim C10 witness: reading 2 bytes into a 3-byte caller buffer holding
[7,7,7] returns count 2 and leaves the buffer [5,6,0] — the stale third
byte is zeroed. -/
theorem read_overwrites_whole_buffer_witness :
    connRead rwcTwoBytes () [7, 7, 7] = ((2, none), [5, 6, 0]) := by
  have h := read_overwrites_whole_buffer rwcTwoBytes () [7, 7, 7] [5, 6] 2
    (by decide) (by decide) rfl
  exact h

theorem supRun_nil {σ : Type} (c : Conn) (rwc : RWC σ) (r : Int)
    (pending : List RillJob) : supRun c rwc r pending [] = [] := rfl

/-- Claim C2: with retryMin = 1s and retryMax = 8s (the configuration that
New accepts into conn8), a run of n consecutive dial failures sleeps
min (2^i * 1s) 8s on the i-th failure — i.e. 1s, 2s, 4s, 8s, 8s, ... — and
after the next successful dial (here a session broken by a failing write)
the backoff is reset: the following run of k dial failures restarts the
same sequence from retryMin.  Every sleep is bounded by retryMax. -/
theorem backoff_sequence_spec (n k : Nat) :
    New [Configurator.address "a", Configurator.retryMin second,
        Configurator.retryMax (8 * second)] = Except.ok conn8
    ∧ sleepDurations (supRun conn8 unitRWC conn8.retryMin []
        (List.replicate n (DialOutcome.fail (GoErr.raw "refused"))
          ++ DialOutcome.ok () [newRillJob Opcode.write [1]]
            :: List.replicate k (DialOutcome.fail (GoErr.raw "refused"))))
      = ((List.range n).map fun i => min ((2 : Int) ^ i * second) (8 * second))
        ++ second :: ((List.range k).map fun i => min ((2 : Int) ^ i * second) (8 * second))
    ∧ (∀ d ∈ sleepDurations (supRun conn8 unitRWC conn8.retryMin []
        (List.replicate n (DialOutcome.fail (GoErr.raw "refused"))
          ++ DialOutcome.ok () [newRillJob Opcode.write [1]]
            :: List.replicate k (DialOutcome.fail (GoErr.raw "refused")))),
        d ≤ conn8.retryMax) := by
  have h1r : (1 : Int) ≤ conn8.retryMin := by decide
  have hrm : conn8.retryMin ≤ conn8.retryMax := by decide
  have hp : conn8.hasPrinter = false := rfl
  have hmin : conn8.retryMin = second := rfl
  have hmax : conn8.retryMax = 8 * second := rfl
  have hsession : (proxy unitRWC () ([] ++ [newRillJob Opcode.write [1]])).ret
      = some (false, some (GoErr.raw "io")) := rfl
  have hleft : (proxy unitRWC () ([] ++ [newRillJob Opcode.write [1]])).leftover = [] := rfl
  have heq : sleepDurations (supRun conn8 unitRWC conn8.retryMin []
      (List.replicate n (DialOutcome.fail (GoErr.raw "refused"))
        ++ DialOutcome.ok () [newRillJob Opcode.write [1]]
          :: List.replicate k (DialOutcome.fail (GoErr.raw "refused"))))
      = ((List.range n).map fun i => min ((2 : Int) ^ i * second) (8 * second))
        ++ second
          :: ((List.range k).map fun i => min ((2 : Int) ^ i * second) (8 * second)) := by
    rw [sleeps_replicate_fail conn8 unitRWC (GoErr.raw "refused") n conn8.retryMin []
      (DialOutcome.ok () [newRillJob Opcode.write [1]]
        :: List.replicate k (DialOutcome.fail (GoErr.raw "refused")))]
    rw [supRun_ok_broken conn8 unitRWC (backoffEnd conn8.retryMax conn8.retryMin n) []
      [newRillJob Opcode.write [1]] () (GoErr.raw "io")
      (List.replicate k (DialOutcome.fail (GoErr.raw "refused"))) hsession]
    rw [hleft]
    have h2 := sleeps_replicate_fail conn8 unitRWC (GoErr.raw "refused") k conn8.retryMin [] []
    rw [List.append_nil] at h2
    simp only [sleepDurations, sleepDurations_append, sleepDurations_map_answer, hp,
      Bool.false_eq_true, if_false, List.nil_append, h2, supRun_nil, List.append_nil]
    rw [backoffList_closed conn8.retryMax n conn8.retryMin h1r hrm,
      backoffList_closed conn8.retryMax k conn8.retryMin h1r hrm]
    simp only [hmin, hmax]
  refine ⟨rfl, heq, ?_⟩
  intro d hd
  rw [heq] at hd
  simp only [List.mem_append, List.mem_cons, List.mem_map, List.mem_range] at hd
  rcases hd with ⟨i, _, rfl⟩ | rfl | ⟨i, _, rfl⟩
  · exact hmax ▸ min_le_right _ _
  · rw [hmax]; decide
  · exact hmax ▸ min_le_right _ _

/-- Claim C2 witness: five failures, a broken session, two more failures
give the sleeps 1s, 2s, 4s, 8s, 8s, then the reset 1s, then 1s, 2s. -/
theorem backoff_sequence_spec_witness :
    sleepDurations (supRun conn8 unitRWC conn8.retryMin []
        (List.replicate 5 (DialOutcome.fail (GoErr.raw "refused"))
          ++ DialOutcome.ok () [newRillJob Opcode.write [1]]
            :: List.replicate 2 (DialOutcome.fail (GoErr.raw "refused"))))
      = [second, 2 * second, 4 * second, 8 * second, 8 * second,
          second, second, 2 * second]
    ∧ 8 * second ≤ conn8.retryMax := by
  have h := backoff_sequence_spec 5 2
  constructor
  · rw [h.2.1]
    decide
  · refine h.2.2 (8 * second) ?_
    rw [h.2.1]
    decide

/-- Claim C9: the owner loop executes jobs against the socket strictly in
queue (FIFO) order: for any socket behaviour and queue content, proxy
consumes a prefix of the queue, executes exactly those jobs in order (its
socket-operation trace is the ops of that prefix, in order), answers each
consumed job exactly once, and leaves the remaining jobs in the queue in
order.  Mutual exclusion holds by construction: proxy is the single
consumer and runs the operations sequentially. -/
theorem proxy_fifo_order {σ : Type} (rwc : RWC σ) (s : σ) (jobs : List RillJob) :
    ∃ p, p ≤ jobs.length
      ∧ (proxy rwc s jobs).answers.length = p
      ∧ (proxy rwc s jobs).answers.map Answer.op = (jobs.take p).map RillJob.op
      ∧ (proxy rwc s jobs).execOps = (jobs.take p).map RillJob.op
      ∧ (proxy rwc s jobs).leftover = jobs.drop p := by
  unfold proxy
  induction jobs generalizing s with
  | nil => exact ⟨0, by simp [proxyLoop]⟩
  | cons j rest ih =>
    obtain ⟨op, d⟩ := j
    cases op with
    | read =>
      rcases herr : ((rwc.readFn s d).1).err with _ | e
      · obtain ⟨p, hp, h1, h2, h3, h4⟩ := ih ((rwc.readFn s d).2)
        refine ⟨p + 1, ?_, ?_, ?_, ?_, ?_⟩ <;>
          simp [proxyLoop, herr, h1, h2, h3, h4]
        omega
      · refine ⟨1, ?_, ?_, ?_, ?_, ?_⟩ <;> simp [proxyLoop, herr]
    | write =>
      rcases herr : ((rwc.writeFn s d).1).2 with _ | e
      · obtain ⟨p, hp, h1, h2, h3, h4⟩ := ih ((rwc.writeFn s d).2)
        refine ⟨p + 1, ?_, ?_, ?_, ?_, ?_⟩ <;>
          simp [proxyLoop, herr, h1, h2, h3, h4]
        omega
      · refine ⟨1, ?_, ?_, ?_, ?_, ?_⟩ <;> simp [proxyLoop, herr]
    | close =>
      refine ⟨1, ?_, ?_, ?_, ?_, ?_⟩ <;> simp [proxyLoop]

/-- Claim C3: after a session that ends broken (proxy returns `(false, err)`
for an I/O error, not a user Close), the supervisor emits the session's
answers and the optional diagnostic print — none of which are sleeps — then
exactly one sleep of length retryMin, whatever the current backoff `r` had
grown to, and the continuation immediately begins with the next dial
attempt. -/
theorem broken_conn_single_min_sleep {σ : Type} (c : Conn) (rwc : RWC σ) (r : Int)
    (pending arr : List RillJob) (s : σ) (e : GoErr) (rest : List (DialOutcome σ))
    (h : (proxy rwc s (pending ++ arr)).ret = some (false, some e)) :
    supRun c rwc r pending (DialOutcome.ok s arr :: rest)
      = SupEvent.dial (dialKind c)
        :: ((proxy rwc s (pending ++ arr)).answers.map SupEvent.answer
          ++ (if c.hasPrinter then [SupEvent.print e] else [])
          ++ SupEvent.sleep c.retryMin
            :: supRun c rwc c.retryMin (proxy rwc s (pending ++ arr)).leftover rest)
    ∧ sleepDurations ((proxy rwc s (pending ++ arr)).answers.map SupEvent.answer
        ++ (if c.hasPrinter then [SupEvent.print e] else [])) = []
    ∧ (rest ≠ [] →
        (supRun c rwc c.retryMin (proxy rwc s (pending ++ arr)).leftover rest).head?
          = some (SupEvent.dial (dialKind c))) := by
  refine ⟨supRun_ok_broken c rwc r pending arr s e rest h, ?_, ?_⟩
  · rcases Bool.eq_false_or_eq_true c.hasPrinter with hp | hp <;>
      simp [sleepDurations_append, sleepDurations_map_answer, hp, sleepDurations]
  · intro hrest
    cases rest with
    | nil => exact absurd rfl hrest
    | cons o rest2 => exact supRun_head c rwc c.retryMin _ o rest2

/-- Claim C3 witness: with the backoff grown to 7s, a broken write session
is followed by a single 1s (retryMin) sleep and then the next dial. -/
theorem broken_conn_single_min_sleep_witness :
    supRun conn8 unitRWC (7 * second) []
        (DialOutcome.ok () [newRillJob Opcode.write [1]] :: [DialOutcome.fail (GoErr.raw "x")])
      = SupEvent.dial (dialKind conn8)
        :: ((proxy unitRWC () ([] ++ [newRillJob Opcode.write [1]])).answers.map SupEvent.answer
          ++ (if conn8.hasPrinter then [SupEvent.print (GoErr.raw "io")] else [])
          ++ SupEvent.sleep conn8.retryMin
            :: supRun conn8 unitRWC conn8.retryMin
                (proxy unitRWC () ([] ++ [newRillJob Opcode.write [1]])).leftover
                [DialOutcome.fail (GoErr.raw "x")])
    ∧ (supRun conn8 unitRWC conn8.retryMin
          (proxy unitRWC () ([] ++ [newRillJob Opcode.write [1]])).leftover
          [DialOutcome.fail (GoErr.raw "x")]).head?
        = some (SupEvent.dial (dialKind conn8)) := by
  have h := broken_conn_single_min_sleep conn8 unitRWC (7 * second) []
    [newRillJob Opcode.write [1]] () (GoErr.raw "io") [DialOutcome.fail (GoErr.raw "x")] rfl
  exact ⟨h.1, h.2.2 (by decide)⟩

/-- Claim C8: when no diagnostic sink is configured the supervisor never
invokes one (no print event occurs at all, for any run); a dial failure
produces only the dial event, the ErrDialFailure print when a sink is
configured, and the backoff sleep — no answer is delivered to any caller
for it; and a session ending in a successful user Close (no error) emits no
print at all: the sink is never invoked for successful operations. -/
theorem dial_failure_sink_only_spec {σ : Type} (c : Conn) (rwc : RWC σ) (r : Int)
    (pending arr : List RillJob) (s : σ) (cause : GoErr)
    (outs rest : List (DialOutcome σ)) :
    (c.hasPrinter = false → printEvents (supRun c rwc r pending outs) = [])
    ∧ supRun c rwc r pending (DialOutcome.fail cause :: rest)
        = SupEvent.dial (dialKind c)
          :: ((if c.hasPrinter then [SupEvent.print (GoErr.dialFailure c.address cause)] else [])
            ++ SupEvent.sleep r :: supRun c rwc (capDouble r c.retryMax) pending rest)
    ∧ answerEvents (SupEvent.dial (dialKind c)
          :: ((if c.hasPrinter then [SupEvent.print (GoErr.dialFailure c.address cause)] else [])
            ++ [SupEvent.sleep r])) = []
    ∧ ((proxy rwc s (pending ++ arr)).ret = some (true, none) →
        supRun c rwc r pending (DialOutcome.ok s arr :: rest)
          = SupEvent.dial (dialKind c)
            :: ((proxy rwc s (pending ++ arr)).answers.map SupEvent.answer
              ++ [SupEvent.terminated])) := by
  refine ⟨fun hp => printEvents_no_printer c rwc hp outs r pending,
    supRun_fail_eq c rwc r pending cause rest, ?_,
    fun h => supRun_ok_clean_close c rwc r pending arr s rest h⟩
  rcases Bool.eq_false_or_eq_true c.hasPrinter with hp | hp <;>
    simp [hp, answerEvents, answerEvents_append]

/-- Claim C8 witness: a run with no sink has no print event; a dial failure
with a sink prints exactly the ErrDialFailure and answers nobody; a clean
Close session prints nothing. -/
theorem dial_failure_sink_only_spec_witness :
    printEvents (supRun conn8 unitRWC second []
        [DialOutcome.fail (GoErr.raw "refused"), DialOutcome.ok () [newRillJob Opcode.read [0]]])
      = []
    ∧ supRun conn8P unitRWC second [] [DialOutcome.fail (GoErr.raw "refused")]
        = SupEvent.dial (dialKind conn8P)
          :: ((if conn8P.hasPrinter
                then [SupEvent.print (GoErr.dialFailure conn8P.address (GoErr.raw "refused"))]
                else [])
            ++ SupEvent.sleep second
              :: supRun conn8P unitRWC (capDouble second conn8P.retryMax) [] [])
    ∧ supRun conn8P unitRWC second [] [DialOutcome.ok () [newRillJob Opcode.close []]]
        = SupEvent.dial (dialKind conn8P)
          :: ((proxy unitRWC () ([] ++ [newRillJob Opcode.close []])).answers.map SupEvent.answer
            ++ [SupEvent.terminated]) := by
  have h1 := dial_failure_sink_only_spec conn8 unitRWC second [] [] () (GoErr.raw "refused")
    [DialOutcome.fail (GoErr.raw "refused"), DialOutcome.ok () [newRillJob Opcode.read [0]]] []
  have h2 := dial_failure_sink_only_spec conn8P unitRWC second [] [newRillJob Opcode.close []] ()
    (GoErr.raw "refused") [] []
  exact ⟨h1.1 rfl, h2.2.1, h2.2.2.2 rfl⟩

end Goperconn
